import Mathlib

/-!
Verification development for the pdf-translator repository.

The post-processing / term-annotation engine
(`pdf_translator/post_processor/post_processor.py`), the rule-based layout
classifier (`src/layout_analyzer/layout_analyzer.py`) and the relevant slice
of the pipeline (`pdf_translator/core/pipeline.py`) are embedded shallowly:
Python strings become `List Char` (Python string indices are code-point
indices, which match list positions), dictionaries preserving insertion
order become association lists, Python floats for page geometry and font
sizes become `ℚ` (all comparisons exercised here involve values that are
exact in both), and `re` operations on escaped (hence literal) patterns
become explicit scanning functions with `re.finditer`'s non-overlapping
left-to-right semantics.  Case-insensitive matching (`re.IGNORECASE`) is
modelled by ASCII lowercasing, which agrees with Python on the ASCII and
Japanese (case-less) inputs exercised.  Python `\s` / `str.strip` whitespace
is modelled by the six ASCII whitespace characters.
-/

set_option maxRecDepth 20000

/-- The six ASCII whitespace characters recognised by Python's `str.strip()`
and matched by `\s` on ASCII input. -/
def isPyWs (c : Char) : Bool :=
  c == ' ' || c == '\t' || c == '\n' || c == '\r' || c == '\x0b' || c == '\x0c'

/-- Python `str.strip()` with no argument: drop leading and trailing whitespace. -/
def pyStrip (l : List Char) : List Char :=
  ((l.dropWhile isPyWs).reverse.dropWhile isPyWs).reverse

/-- Models `not translated_term or translated_term.strip() == ""`
(post_processor.py line 171): true for the empty string and for
whitespace-only strings. -/
def strippedEmpty (l : List Char) : Bool := l.all isPyWs

/-- The literal `"{translation}"` placeholder of the annotation format template. -/
def transPH : List Char := "\x7btranslation\x7d".toList

/-- The literal `"{original}"` placeholder of the annotation format template. -/
def origPH : List Char := "\x7boriginal\x7d".toList

/-- Recursion worker for `pyFormat`; structural on `fuel`, which each step
decreases while consuming at least one template character, so the
fuel-exhausted branch is unreachable from `pyFormat`. -/
def pyFormatF (tr orig : List Char) : Nat → List Char → List Char
  | 0, rem => rem
  | fuel + 1, rem =>
    match rem with
    | [] => []
    | c :: rest =>
      if (c :: rest).take 13 = transPH then tr ++ pyFormatF tr orig fuel ((c :: rest).drop 13)
      else if (c :: rest).take 10 = origPH then orig ++ pyFormatF tr orig fuel ((c :: rest).drop 10)
      else c :: pyFormatF tr orig fuel rest

/-- Python `format_string.format(translation=tr, original=orig)` for templates
built from literal text and the two replacement fields `{translation}` and
`{original}` (the only fields occurring in this program). -/
def pyFormat (fmt tr orig : List Char) : List Char :=
  pyFormatF tr orig fmt.length fmt

/-- ASCII lowercasing applied when matching case-insensitively. -/
def lowerIf (cs : Bool) (l : List Char) : List Char :=
  if cs then l else l.map Char.toLower

/-- Whether the literal pattern `pat` matches `text` at position `j`
(case-sensitively when `cs`, else after lowercasing, modelling `re.IGNORECASE`). -/
def matchesAt (cs : Bool) (pat text : List Char) (j : Nat) : Bool :=
  let slice := (text.drop j).take pat.length
  slice.length == pat.length && lowerIf cs slice == lowerIf cs pat

/-- Position of the first match of `pat` in `text` at or after position `i`. -/
def findFrom (cs : Bool) (pat text : List Char) (i : Nat) : Option Nat :=
  (List.range (text.length + 1)).find? fun j => decide (i ≤ j) && matchesAt cs pat text j

/-- Successive non-overlapping match positions starting from `i`, following
`re.finditer`: after a match at `j` the scan resumes at `j + len(pat)`
(advancing at least one position).  `fuel` bounds the recursion; it is called
with `text.length + 1`, which is enough for every possible match. -/
def finditerFrom (cs : Bool) (pat text : List Char) : Nat → Nat → List Nat
  | _, 0 => []
  | i, Nat.succ fuel =>
    match findFrom cs pat text i with
    | none => []
    | some j => j :: finditerFrom cs pat text (j + max pat.length 1) fuel

/-- All match positions of `re.finditer(re.escape(pat), text)` in order. -/
def finditer (cs : Bool) (pat text : List Char) : List Nat :=
  finditerFrom cs pat text 0 (text.length + 1)

/-- Models the overlap test of `_annotate_term_with_positions` (lines 188-191):
the candidate span `[s, e)` overlaps some recorded span, i.e.
`not (end <= existing_start or start >= existing_end)` for some recorded pair. -/
def overlapsAny (s e : Nat) (consumed : List (Nat × Nat)) : Bool :=
  consumed.any fun q => !(decide (e ≤ q.1) || decide (s ≥ q.2))

/-- The `_annotation_count` dictionary: an association list from original
term to count, read through `countsGet`. -/
abbrev Counts := List (List Char × Nat)

/-- `self._annotation_count.get(term, 0)`. -/
def countsGet (counts : Counts) (k : List Char) : Nat :=
  (counts.lookup k).getD 0

/-- `self._annotation_count[term] = v`. -/
def countsSet (counts : Counts) (k : List Char) (v : Nat) : Counts :=
  (k, v) :: counts

/-- `PostProcessorConfig` (post_processor.py lines 14-24). -/
structure PostProcessorConfig where
  add_source_terms : Bool
  source_term_format : List Char
  spacing_adjustment : Bool
  preserve_line_breaks : Bool
  min_term_length : Nat
  max_annotations_per_term : Nat
  case_sensitive : Bool

/-- The dataclass defaults of `PostProcessorConfig`. -/
def defaultConfig : PostProcessorConfig where
  add_source_terms := true
  source_term_format := "\x7btranslation\x7d（\x7boriginal\x7d）".toList
  spacing_adjustment := true
  preserve_line_breaks := true
  min_term_length := 2
  max_annotations_per_term := 1
  case_sensitive := false

/-- `PostProcessingResult` (post_processor.py lines 46-55); the free-form
`metadata` dictionary, never written by the code, is omitted. -/
structure PostProcessingResult where
  processed_text : List Char
  success : Bool
  error : Option (List Char)
  annotations_added : Nat
  terms_processed : Nat
deriving DecidableEq

/-- `_annotate_term_with_positions` (lines 163-209).  Returns the updated
count table, the updated text, the number of annotations added (0 or 1) and
the set of newly recorded spans.  The Python loop accepts the first
`finditer` match that does not overlap a recorded span, provided the term's
session count is exactly 0; since the count does not change while scanning,
this equals: find the first non-overlapping match, then test the count. -/
def annotate_term_with_positions (fmt : List Char) (cs : Bool) (counts : Counts)
    (text origT transT : List Char) (consumed : List (Nat × Nat)) :
    Counts × List Char × Nat × List (Nat × Nat) :=
  if strippedEmpty transT then (counts, text, 0, [])
  else
    let gloss := pyFormat fmt transT origT
    match (finditer cs transT text).find? (fun j => !(overlapsAny j (j + transT.length) consumed)) with
    | some j =>
      if countsGet counts origT == 0 then
        (countsSet counts origT (countsGet counts origT + 1),
         text.take j ++ gloss ++ text.drop (j + transT.length),
         1,
         [(j, j + gloss.length)])
      else (counts, text, 0, [])
    | none => (counts, text, 0, [])

/-- Stable descending insertion by translated-string length: `x` goes in
front of the first element whose key is `≤` its own, so earlier list
elements precede later ones on ties — exactly the order produced by Python's
stable `sorted(..., key=lambda x: len(x[1]), reverse=True)`. -/
def insertByLenDesc (x : List Char × List Char) :
    List (List Char × List Char) → List (List Char × List Char)
  | [] => [x]
  | y :: ys => if y.2.length ≤ x.2.length then x :: y :: ys else y :: insertByLenDesc x ys

/-- `sorted(term_translations.items(), key=lambda x: len(x[1]), reverse=True)`
(lines 132-137), as a stable sort of the insertion-ordered pair list. -/
def sortTermsByLenDesc (l : List (List Char × List Char)) :
    List (List Char × List Char) :=
  l.foldr insertByLenDesc []

/-- Extent update applied to a previously inserted gloss when the text is
next spliced at `[s, e)` by a replacement of length `L`: spans entirely
before the splice are unmoved, spans entirely after shift by the length
delta, and a span the splice falls inside stretches by the delta.  This is
verification instrumentation only — the program records no such update,
which is exactly what claim C1 is about. -/
def spliceShift (s e L : Int) (p : Int × Int) : Int × Int :=
  let d := L - (e - s)
  if p.2 ≤ s then p
  else if e ≤ p.1 then (p.1 + d, p.2 + d)
  else (p.1, p.2 + d)

/-- Loop state of `_add_source_term_annotations`: the count table, the
working text, the running `annotations_added`, the recorded
`annotated_positions`, and (ghost) the evolving extents of every inserted
gloss in the coordinates of the current working text. -/
structure AnnState where
  counts : Counts
  text : List Char
  added : Nat
  consumed : List (Nat × Nat)
  extents : List (Int × Int)
deriving DecidableEq

/-- One iteration of the `for original_term, translated_term in sorted_terms`
loop (lines 142-159): skip short originals, skip terms at their annotation
cap, otherwise attempt one annotation and record the returned positions. -/
def annStep (cfg : PostProcessorConfig) (st : AnnState)
    (tm : List Char × List Char) : AnnState :=
  if tm.1.length < cfg.min_term_length then st
  else if cfg.max_annotations_per_term ≤ countsGet st.counts tm.1 then st
  else
    let r := annotate_term_with_positions cfg.source_term_format cfg.case_sensitive
      st.counts st.text tm.1 tm.2 st.consumed
    { counts := r.1
      text := r.2.1
      added := st.added + r.2.2.1
      consumed := st.consumed ++ r.2.2.2
      extents := r.2.2.2.foldl
        (fun acc p =>
          (acc.map (spliceShift (p.1 : Int) ((p.1 : Int) + (tm.2.length : Int))
            ((p.2 : Int) - (p.1 : Int)))) ++ [((p.1 : Int), (p.2 : Int))])
        st.extents }

/-- `_add_source_term_annotations` (lines 125-161). -/
def add_source_term_annotations (cfg : PostProcessorConfig) (counts : Counts)
    (text : List Char) (terms : List (List Char × List Char)) : AnnState :=
  (sortTermsByLenDesc terms).foldl (annStep cfg) ⟨counts, text, 0, [], []⟩

/-- Characters of the Hiragana, Katakana and CJK-unified blocks matched by
the `japanese_pattern` regex of `_adjust_spacing` (line 255). -/
def isJaChar (c : Char) : Bool :=
  (0x3040 ≤ c.toNat && c.toNat ≤ 0x309F) ||
  (0x30A0 ≤ c.toNat && c.toNat ≤ 0x30FF) ||
  (0x4E00 ≤ c.toNat && c.toNat ≤ 0x9FAF)

/-- ASCII alphanumerics matched by the `ascii_pattern` regex `[A-Za-z0-9]`. -/
def isAsciiAlnumChar (c : Char) : Bool :=
  (65 ≤ c.toNat && c.toNat ≤ 90) || (97 ≤ c.toNat && c.toNat ≤ 122) ||
  (48 ≤ c.toNat && c.toNat ≤ 57)

/-- `re.sub(f"({p})({q})", r"\1 \2", text)` for single-character classes `p`
and `q`: insert a space between every adjacent pair `p`-then-`q`; both
characters of a match are consumed before the scan resumes, as `re.sub` does. -/
def subPairSpace (p q : Char → Bool) : List Char → List Char
  | [] => []
  | [c] => [c]
  | a :: b :: rest =>
    if p a && q b then a :: ' ' :: b :: subPairSpace p q rest
    else a :: subPairSpace p q (b :: rest)

/-- `re.sub(r" +", " ", text)` (line 264): collapse each maximal run of
plain spaces to a single space (dropping all but the last space of a run). -/
def collapseSpaces : List Char → List Char
  | [] => []
  | [a] => [a]
  | a :: b :: rest =>
    if a == ' ' && b == ' ' then collapseSpaces (b :: rest)
    else a :: collapseSpaces (b :: rest)

/-- `_adjust_spacing` (lines 249-266): space insertion at Japanese/ASCII
boundaries in both directions, then space-run collapsing. -/
def adjust_spacing (t : List Char) : List Char :=
  collapseSpaces (subPairSpace isAsciiAlnumChar isJaChar (subPairSpace isJaChar isAsciiAlnumChar t))

/-- `text.replace("\r\n", "\n")`: left-to-right non-overlapping replacement. -/
def replaceCRLF : List Char → List Char
  | [] => []
  | '\r' :: '\n' :: rest => '\n' :: replaceCRLF rest
  | c :: rest => c :: replaceCRLF rest

/-- `text.replace("\r", "\n")`. -/
def replaceCR (l : List Char) : List Char :=
  l.map fun c => if c == '\r' then '\n' else c

/-- Index (within `l`) of the last `'\n'` inside the leading whitespace run
of `l`, if any: with greedy backtracking, `\n\s*\n` anchored just before `l`
matches up to exactly this newline. -/
def lastNlIdx (l : List Char) : Option Nat :=
  let ws := l.takeWhile isPyWs
  match ws.reverse.findIdx? (fun c => c == '\n') with
  | some r => some (ws.length - 1 - r)
  | none => none

/-- Recursion worker for `collapseBlank`; structural on `fuel`, which each
step decreases while consuming at least one character, so the fuel-exhausted
branch is unreachable from `collapseBlank`. -/
def collapseBlankF : Nat → List Char → List Char
  | 0, rem => rem
  | fuel + 1, rem =>
    match rem with
    | [] => []
    | c :: rest =>
      if c == '\n' then
        match lastNlIdx rest with
        | some k => '\n' :: '\n' :: collapseBlankF fuel (rest.drop (k + 1))
        | none => c :: collapseBlankF fuel rest
      else c :: collapseBlankF fuel rest

/-- `re.sub(r"\n\s*\n", "\n\n", text)` (line 277): at each `'\n'`, greedily
match through following whitespace to the last reachable `'\n'`, emit
exactly two newlines, and resume after the match; positions with no
following newline in the whitespace run do not match. -/
def collapseBlank (l : List Char) : List Char :=
  collapseBlankF l.length l

/-- `_preserve_formatting` (lines 268-279): normalise line endings, then
collapse blank segments between newlines to exactly one empty line. -/
def preserve_formatting (t : List Char) : List Char :=
  collapseBlank (replaceCR (replaceCRLF t))

/-- The error message of the `translated_text is None` branch (line 76). -/
def noneMsg : List Char := "Translated text is None".toList

/-- `PostProcessor.process` (lines 70-111), with the instance's
`_annotation_count` passed and returned explicitly.  The `None` input check
precedes the clearing of the count table; on the normal path the table is
cleared (line 85) and the three passes run under their config flags. -/
def process (cfg : PostProcessorConfig) (counts : Counts)
    (translated_text : Option (List Char)) (terms : List (List Char × List Char)) :
    Counts × PostProcessingResult :=
  match translated_text with
  | none => (counts, ⟨[], false, some noneMsg, 0, 0⟩)
  | some t =>
    let cleared : Counts := []
    let st :=
      if cfg.add_source_terms && !terms.isEmpty then
        add_source_term_annotations cfg cleared t terms
      else ⟨cleared, t, 0, [], []⟩
    let t2 := if cfg.spacing_adjustment then adjust_spacing st.text else st.text
    let t3 := if cfg.preserve_line_breaks then preserve_formatting t2 else t2
    (st.counts, ⟨t3, true, none, st.added, terms.length⟩)

/-- The `except` branch of `process` (lines 105-111): on any exception `e`
raised inside the try block, the original `translated_text` is returned
verbatim with `success=False`, `error=str(e)`, and the dataclass defaults
`annotations_added=0`, `terms_processed=0`. -/
def processExceptionResult (e t : List Char) : PostProcessingResult :=
  ⟨t, false, some e, 0, 0⟩

/-- `BatchPostProcessor.process_pages` (lines 311-324): one `PostProcessor`
(count table starting empty) is shared across all pages, each processed by
`process` with the shared, threaded table. -/
def process_pages (cfg : PostProcessorConfig) (pages : List (List Char))
    (global_terms : List (List Char × List Char)) : List PostProcessingResult :=
  (pages.foldl
    (fun (acc : Counts × List PostProcessingResult) p =>
      let pr := process cfg acc.1 (some p) global_terms
      (pr.1, acc.2 ++ [pr.2]))
    ([], [])).2

/-- `RegionType` of the layout analyzer
(`src/layout_analyzer/layout_analyzer.py` lines 17-29). -/
inductive AnalyzerRegionType where
  | TEXT | TITLE | PARAGRAPH | LIST | TABLE | FIGURE | HEADER | FOOTER | COLUMN | SECTION
deriving DecidableEq

/-- `TextBlock` as consumed by the layout analyzer (`pdf_extractor.TextBlock`):
text, bounding box `(x0, y0, x1, y1)`, page number, font size and name.
Geometry uses `ℚ` for Python floats. -/
structure ExtTextBlock where
  text : List Char
  bbox : ℚ × ℚ × ℚ × ℚ
  page_num : Nat
  font_size : ℚ
  font_name : List Char
deriving DecidableEq

/-- `PageInfo` as consumed by the layout analyzer. -/
structure ExtPageInfo where
  page_num : Nat
  width : ℚ
  height : ℚ
  text_blocks : List ExtTextBlock
  raw_text : List Char
  has_images : Bool
deriving DecidableEq

/-- The fixed bullet-glyph set of `_classify_text_block` (line 214). -/
def bulletChars : List Char := ['•', '●', '○', '-', '*']

/-- The LIST test of `_classify_text_block` (lines 214-215):
`text.startswith(('•','●','○','-','*')) or (len(text) > 2 and text[0].isdigit() and text[1] in '.)')` —
note the numbering branch inspects exactly one digit at `text[0]`. -/
def startsWithListMarker (text : List Char) : Bool :=
  (match text with
   | c :: _ => bulletChars.contains c
   | [] => false) ||
  (decide (2 < text.length) &&
   (match text with
    | c0 :: c1 :: _ => c0.isDigit && (c1 == '.' || c1 == ')')
    | _ => false))

/-- The positional HEADER / FOOTER / PARAGRAPH fallthrough of
`_classify_text_block` (lines 226-234): top edge within the top 5% of the
page height, bottom edge within the bottom 5%, else paragraph. -/
def posClassify (block : ExtTextBlock) (page : ExtPageInfo) : AnalyzerRegionType :=
  if block.bbox.2.1 < page.height * (0.05 : ℚ) then .HEADER
  else if page.height * (0.95 : ℚ) < block.bbox.2.2.2 then .FOOTER
  else .PARAGRAPH

/-- `_classify_text_block` (lines 199-234): list markers first, then the
font-size title heuristics (mean-based with ≥ 2 blocks, absolute 14.0 for a
single-block page; failing title checks fall through to the positional
classification). -/
def classify_text_block (block : ExtTextBlock) (page : ExtPageInfo) : AnalyzerRegionType :=
  let text := pyStrip block.text
  if startsWithListMarker text then .LIST
  else if 1 < page.text_blocks.length then
    let avg : ℚ := ((page.text_blocks.map (fun b => b.font_size)).sum) / (page.text_blocks.length : ℚ)
    if avg * (1.25 : ℚ) ≤ block.font_size ∧ text.length < 100 then .TITLE
    else posClassify block page
  else if (14.0 : ℚ) < block.font_size ∧ text.length < 100 then .TITLE
  else posClassify block page

/-- `RegionType` of `pdf_translator/models/layout.py` (lines 8-19); a plain
Python `Enum` whose member values are lowercase strings. -/
inductive ModelRegionType where
  | TITLE | PARAGRAPH | LIST | TABLE | FIGURE | CAPTION | HEADER | FOOTER | UNKNOWN
deriving DecidableEq

/-- `Region` of `pdf_translator/models/layout.py`. -/
structure ModelRegion where
  type : ModelRegionType
  x : ℚ
  y : ℚ
  width : ℚ
  height : ℚ
  confidence : ℚ
  text : Option (List Char)
deriving DecidableEq

/-- `TextBlock` of `pdf_translator/models/page.py`. -/
structure ModelTextBlock where
  text : List Char
  x : ℚ
  y : ℚ
  width : ℚ
  height : ℚ
  font_size : Option ℚ
  font_name : Option (List Char)
deriving DecidableEq

/-- `Page` of `pdf_translator/models/page.py`; the `images` list is omitted
(it only feeds `has_images`, which the modelled pipeline slice never reads). -/
structure ModelPage where
  number : Nat
  width : ℚ
  height : ℚ
  text_blocks : List ModelTextBlock
  regions : List ModelRegion
deriving DecidableEq

/-- Python `==` between a `RegionType` enum member and a `str`, as evaluated
by `region.type in ["figure", "table"]` (pipeline.py line 349): `RegionType`
is a plain `Enum` (not a `str` mixin), whose default equality never equates
a member with a string, so the comparison is `False` for every member and
every string. -/
def regionTypeEqStr (_r : ModelRegionType) (_s : List Char) : Bool := false

/-- `TranslationPipeline._is_in_non_text_region` (pipeline.py lines 340-354):
empty region list short-circuits to `False`; otherwise some region must both
satisfy `region.type in ["figure", "table"]` and contain the block's center. -/
def is_in_non_text_region (block : ModelTextBlock) (page : ModelPage) : Bool :=
  if page.regions.isEmpty then false
  else
    page.regions.any fun r =>
      (regionTypeEqStr r.type "figure".toList || regionTypeEqStr r.type "table".toList) &&
      (decide (r.x ≤ block.x + block.width / 2) &&
       decide (block.x + block.width / 2 ≤ r.x + r.width) &&
       decide (r.y ≤ block.y + block.height / 2) &&
       decide (block.y + block.height / 2 ≤ r.y + r.height))

/-- The translate-and-annotate loop of `TranslationPipeline._process_page`
(pipeline.py lines 228-338) with layout analysis disabled
(`layout.enabled = False`, so `page.regions` is the caller's): image-only
pages pass through; otherwise each block is kept verbatim when
`_is_in_non_text_region` holds and is otherwise translated (`translator`)
and post-processed by the pipeline's `PostProcessor` (whose count table
`ppCounts` is threaded through the calls). -/
def process_page (translator : List Char → List Char) (cfg : PostProcessorConfig)
    (terms : List (List Char × List Char)) (ppCounts : Counts) (page : ModelPage) :
    ModelPage :=
  if page.text_blocks.isEmpty then page
  else
    { page with
      text_blocks :=
        (page.text_blocks.foldl
          (fun (acc : Counts × List ModelTextBlock) b =>
            if is_in_non_text_region b page then (acc.1, acc.2 ++ [b])
            else
              let pr := process cfg acc.1 (some (translator b.text)) terms
              (pr.1, acc.2 ++ [{ b with text := pr.2.processed_text }]))
          (ppCounts, [])).2 }

/-- No two adjacent characters of the list are both plain spaces. -/
def noTwoSpaces : List Char → Bool
  | [] => true
  | [_] => true
  | a :: b :: rest => !(a == ' ' && b == ' ') && noTwoSpaces (b :: rest)

/-- Half-open integer intervals intersect. -/
def spansOverlap (p q : Int × Int) : Bool :=
  decide (p.1 < q.2) && decide (q.1 < p.2)

/-- Some two spans of the list intersect. -/
def hasOverlap : List (Int × Int) → Bool
  | [] => false
  | p :: rest => rest.any (spansOverlap p) || hasOverlap rest

/-- `pat` occurs as a contiguous substring of `text` (Python `pat in text`). -/
def occursIn (pat text : List Char) : Bool :=
  (List.range (text.length + 1)).any fun j => matchesAt true pat text j

/-- Modelled from the claim C7 wording only (not from the code): the text
matches `digit+` followed by `'.'` or `')'`.  Used solely to exhibit an
input satisfying the claim's premise. -/
def claimDigitRunMarker (t : List Char) : Bool :=
  let ds := t.takeWhile Char.isDigit
  decide (1 ≤ ds.length) &&
  (match t.drop ds.length with
   | c :: _ => c == '.' || c == ')'
   | [] => false)

/-- Input text of the C1 failing run. -/
def c1Text : List Char := "BBBAAAA".toList

/-- Term mapping of the C1 failing run, in dictionary insertion order. -/
def c1Terms : List (List Char × List Char) :=
  [("one".toList, "AAAA".toList), ("two".toList, "BBB".toList), ("xyz".toList, "one".toList)]

/-- A single-digit numbered block with a large font (C7). -/
def listBlock : ExtTextBlock :=
  { text := "1. Numbered item".toList, bbox := (0, 50, 100, 60), page_num := 0,
    font_size := 24, font_name := [] }

/-- A two-digit numbered block with a large font (C7). -/
def twoDigitBlock : ExtTextBlock :=
  { text := "12. Numbered item".toList, bbox := (0, 50, 100, 60), page_num := 0,
    font_size := 24, font_name := [] }

/-- A small-font body block (C7). -/
def bodyBlock : ExtTextBlock :=
  { text := "Regular body text".toList, bbox := (0, 70, 100, 80), page_num := 0,
    font_size := 12, font_name := [] }

/-- Page holding `listBlock` (mean font 18, title threshold 22.5 ≤ 24, so the
title heuristic would also match it). -/
def c7PageA : ExtPageInfo :=
  { page_num := 0, width := 100, height := 100, text_blocks := [listBlock, bodyBlock],
    raw_text := [], has_images := false }

/-- Page holding `twoDigitBlock` under the same title threshold. -/
def c7PageB : ExtPageInfo :=
  { page_num := 0, width := 100, height := 100, text_blocks := [twoDigitBlock, bodyBlock],
    raw_text := [], has_images := false }

/-- A FIGURE region covering `[0,100] × [0,100]` (C8). -/
def figRegion : ModelRegion :=
  { type := .FIGURE, x := 0, y := 0, width := 100, height := 100,
    confidence := 1, text := none }

/-- A page whose single text block is centered at (50, 50), inside its one
FIGURE region `figRegion` (C8). -/
def figPage : ModelPage :=
  { number := 1, width := 200, height := 200,
    text_blocks := [{ text := "hello".toList, x := 40, y := 40, width := 20, height := 20,
                      font_size := none, font_name := none }],
    regions := [figRegion] }

theorem countsGet_nil (k : List Char) : countsGet [] k = 0 := rfl

theorem countsGet_countsSet (c : Counts) (k : List Char) (v : Nat) (j : List Char) :
    countsGet (countsSet c k v) j = if j = k then v else countsGet c j := by
  by_cases h : j = k
  · subst h
    simp [countsGet, countsSet, List.lookup]
  · simp [countsGet, countsSet, List.lookup, h, beq_eq_false_iff_ne.mpr h]

theorem annotate_counts_cases (fmt : List Char) (cs : Bool) (counts : Counts)
    (text origT transT : List Char) (consumed : List (Nat × Nat)) :
    (annotate_term_with_positions fmt cs counts text origT transT consumed).1 = counts ∨
    (countsGet counts origT = 0 ∧
      (annotate_term_with_positions fmt cs counts text origT transT consumed).1 =
        countsSet counts origT 1) := by
  unfold annotate_term_with_positions
  split
  · exact Or.inl rfl
  · split
    · split
      next hz =>
        have hz0 : countsGet counts origT = 0 := by simpa using hz
        exact Or.inr ⟨hz0, by rw [hz0]⟩
      next hz => exact Or.inl rfl
    · exact Or.inl rfl

theorem annStep_counts_le (cfg : PostProcessorConfig) (st : AnnState)
    (tm : List Char × List Char) (h : ∀ k, countsGet st.counts k ≤ 1) :
    ∀ k, countsGet (annStep cfg st tm).counts k ≤ 1 := by
  intro k
  unfold annStep
  split
  · exact h k
  split
  · exact h k
  · change countsGet (annotate_term_with_positions cfg.source_term_format cfg.case_sensitive
      st.counts st.text tm.1 tm.2 st.consumed).1 k ≤ 1
    rcases annotate_counts_cases cfg.source_term_format cfg.case_sensitive st.counts
      st.text tm.1 tm.2 st.consumed with hc | ⟨hz, hc⟩
    · rw [hc]; exact h k
    · rw [hc, countsGet_countsSet]
      split
      · exact le_refl 1
      · exact h k

theorem foldl_annStep_counts_le (cfg : PostProcessorConfig)
    (l : List (List Char × List Char)) :
    ∀ st : AnnState, (∀ k, countsGet st.counts k ≤ 1) →
      ∀ k, countsGet ((l.foldl (annStep cfg) st).counts) k ≤ 1 := by
  induction l with
  | nil => intro st h k; exact h k
  | cons x xs ih => intro st h k; exact ih _ (annStep_counts_le cfg st x h) k

theorem mem_insertByLenDesc (x : List Char × List Char) :
    ∀ (l : List (List Char × List Char)) (y : List Char × List Char),
      y ∈ insertByLenDesc x l → y = x ∨ y ∈ l := by
  intro l
  induction l with
  | nil => intro y hm; simpa [insertByLenDesc] using hm
  | cons z zs ih =>
    intro y hm
    simp only [insertByLenDesc] at hm
    split at hm
    · rcases List.mem_cons.mp hm with h | h
      · exact Or.inl h
      · exact Or.inr h
    · rcases List.mem_cons.mp hm with h | h
      · exact Or.inr (by simp [h])
      · rcases ih y h with h2 | h2
        · exact Or.inl h2
        · exact Or.inr (List.mem_cons_of_mem _ h2)

theorem pairwise_insertByLenDesc (x : List Char × List Char) :
    ∀ l : List (List Char × List Char),
      l.Pairwise (fun p q => q.2.length ≤ p.2.length) →
      (insertByLenDesc x l).Pairwise (fun p q => q.2.length ≤ p.2.length) := by
  intro l
  induction l with
  | nil => intro _; simp [insertByLenDesc]
  | cons z zs ih =>
    intro hp
    rcases List.pairwise_cons.mp hp with ⟨hz, hzs⟩
    simp only [insertByLenDesc]
    split
    next hle =>
      refine List.pairwise_cons.mpr ⟨?_, hp⟩
      intro b hb
      rcases List.mem_cons.mp hb with h | h
      · subst h; exact hle
      · exact le_trans (hz b h) hle
    next hlt =>
      refine List.pairwise_cons.mpr ⟨?_, ih hzs⟩
      intro b hb
      rcases mem_insertByLenDesc x zs b hb with h | h
      · subst h; omega
      · exact hz b h

theorem pairwise_sortTermsByLenDesc :
    ∀ l : List (List Char × List Char),
      (sortTermsByLenDesc l).Pairwise (fun p q => q.2.length ≤ p.2.length) := by
  intro l
  induction l with
  | nil => simp [sortTermsByLenDesc]
  | cons x xs ih => exact pairwise_insertByLenDesc x _ ih



theorem count_subPairSpace (p q : Char → Bool) (c : Char) (h : c ≠ ' ') :
    ∀ l : List Char, (subPairSpace p q l).count c = l.count c := by
  have h1 : (c == ' ') = false := beq_eq_false_iff_ne.mpr h
  have h2 : ¬(' ' = c) := fun hh => h hh.symm
  intro l
  induction l using subPairSpace.induct p q with
  | case1 => rfl
  | case2 a => rfl
  | case3 a b rest hcond ih =>
    rw [show subPairSpace p q (a :: b :: rest) = a :: ' ' :: b :: subPairSpace p q rest from by
      simp [subPairSpace, hcond]]
    simp [List.count_cons, ih, h1, h2]
  | case4 a b rest hcond ih =>
    have hfalse : (p a && q b) = false := by
      cases hx : (p a && q b) with
      | false => rfl
      | true => exact absurd hx hcond
    rw [show subPairSpace p q (a :: b :: rest) = a :: subPairSpace p q (b :: rest) from by
      simp [subPairSpace, hfalse]]
    simp [List.count_cons, ih]

theorem count_collapseSpaces (c : Char) (h : c ≠ ' ') :
    ∀ l : List Char, (collapseSpaces l).count c = l.count c := by
  have h1 : (c == ' ') = false := beq_eq_false_iff_ne.mpr h
  have h2 : ¬(' ' = c) := fun hh => h hh.symm
  intro l
  induction l using collapseSpaces.induct with
  | case1 => rfl
  | case2 a => rfl
  | case3 a b rest hcond ih =>
    obtain ⟨ha, hb⟩ : a = ' ' ∧ b = ' ' := by simpa using hcond
    rw [show collapseSpaces (a :: b :: rest) = collapseSpaces (b :: rest) from by
      simp [collapseSpaces, hcond]]
    subst ha
    simp [List.count_cons, ih, h1, h2]
  | case4 a b rest hcond ih =>
    have hfalse : ((a == ' ') && (b == ' ')) = false := by
      cases hx : ((a == ' ') && (b == ' ')) with
      | false => rfl
      | true => exact absurd hx hcond
    rw [show collapseSpaces (a :: b :: rest) = a :: collapseSpaces (b :: rest) from by
      simp [collapseSpaces, hfalse]]
    simp [List.count_cons, ih]

theorem collapseSpaces_head : ∀ l : List Char, (collapseSpaces l).head? = l.head? := by
  intro l
  induction l using collapseSpaces.induct with
  | case1 => rfl
  | case2 a => rfl
  | case3 a b rest hcond ih =>
    obtain ⟨ha, hb⟩ : a = ' ' ∧ b = ' ' := by simpa using hcond
    rw [show collapseSpaces (a :: b :: rest) = collapseSpaces (b :: rest) from by
      simp [collapseSpaces, hcond]]
    rw [ih]
    simp [ha, hb]
  | case4 a b rest hcond ih =>
    have hfalse : ((a == ' ') && (b == ' ')) = false := by
      cases hx : ((a == ' ') && (b == ' ')) with
      | false => rfl
      | true => exact absurd hx hcond
    rw [show collapseSpaces (a :: b :: rest) = a :: collapseSpaces (b :: rest) from by
      simp [collapseSpaces, hfalse]]
    simp

theorem noTwoSpaces_collapseSpaces : ∀ l : List Char, noTwoSpaces (collapseSpaces l) = true := by
  intro l
  induction l using collapseSpaces.induct with
  | case1 => rfl
  | case2 a => rfl
  | case3 a b rest hcond ih =>
    rw [show collapseSpaces (a :: b :: rest) = collapseSpaces (b :: rest) from by
      simp [collapseSpaces, hcond]]
    exact ih
  | case4 a b rest hcond ih =>
    have hfalse : ((a == ' ') && (b == ' ')) = false := by
      cases hx : ((a == ' ') && (b == ' ')) with
      | false => rfl
      | true => exact absurd hx hcond
    obtain ⟨t, ht⟩ : ∃ t, collapseSpaces (b :: rest) = b :: t := by
      have hh := collapseSpaces_head (b :: rest)
      cases hcs : collapseSpaces (b :: rest) with
      | nil => rw [hcs] at hh; simp at hh
      | cons x xs =>
        rw [hcs] at hh
        simp only [List.head?_cons, Option.some.injEq] at hh
        exact ⟨xs, by rw [hh]⟩
    rw [show collapseSpaces (a :: b :: rest) = a :: collapseSpaces (b :: rest) from by
      simp [collapseSpaces, hfalse]]
    rw [ht]
    simp only [noTwoSpaces, hfalse, Bool.not_false, Bool.true_and]
    rw [← ht]
    exact ih

/-- C10: every `process()` call on a string input clears the per-term
annotation-count table before doing any work (line 85), so for a fixed
configuration its result — and, on the normal path, the resulting count
table — is a function of the arguments alone: two calls with identical
`translated_text` and `term_translations` agree no matter what count table
earlier calls on the same instance left behind. -/
theorem process_result_independent_of_prior_state :
    ∀ (cfg : PostProcessorConfig) (c1 c2 : Counts) (terms : List (List Char × List Char)),
      (∀ txt : Option (List Char),
        (process cfg c1 txt terms).2 = (process cfg c2 txt terms).2) ∧
      (∀ t : List Char, process cfg c1 (some t) terms = process cfg c2 (some t) terms) := by
  intro cfg c1 c2 terms
  refine ⟨fun txt => ?_, fun t => rfl⟩
  cases txt <;> rfl

/-- C9: within a single `process()` call at most one annotation is inserted
per original term, for every configuration — in particular even when
`max_annotations_per_term > 1` — because `_annotate_term_with_positions`
accepts an occurrence only when the term's session count is exactly 0
(line 193): the final count table maps every term to at most 1.  Concretely,
with `max_annotations_per_term = 3` and three occurrences of the translated
term, exactly one annotation is added. -/
theorem at_most_one_gloss_per_term :
    (∀ (cfg : PostProcessorConfig) (counts : Counts) (t : List Char)
        (terms : List (List Char × List Char)) (k : List Char),
        countsGet ((process cfg counts (some t) terms).1) k ≤ 1) ∧
    (process { defaultConfig with max_annotations_per_term := 3 } []
        (some "ML and ML and ML".toList)
        [("machine learning".toList, "ML".toList)]).2.annotations_added = 1 ∧
    (process { defaultConfig with max_annotations_per_term := 3 } []
        (some "ML and ML and ML".toList)
        [("machine learning".toList, "ML".toList)]).2.processed_text =
      "ML（machine learning） and ML and ML".toList := by
  refine ⟨fun cfg counts t terms k => ?_, by decide, by decide⟩
  show countsGet
    (if cfg.add_source_terms && !terms.isEmpty then
        add_source_term_annotations cfg [] t terms
      else ⟨[], t, 0, [], []⟩ : AnnState).counts k ≤ 1
  split
  · unfold add_source_term_annotations
    exact foldl_annStep_counts_le cfg (sortTermsByLenDesc terms) ⟨[], t, 0, [], []⟩
      (fun k2 => by rw [countsGet_nil]; omega) k
  · rw [countsGet_nil]; omega

/-- C4: `process(None, terms)` returns `success=false`, an empty
`processed_text` and the non-empty error "Translated text is None" while
leaving the count table untouched; the internal-failure (`except`) branch
returns the original input verbatim with `success=false` and `error=str(e)`;
and `process("", {})` succeeds with an empty `processed_text`. -/
theorem process_failure_and_empty_paths :
    (∀ (cfg : PostProcessorConfig) (counts : Counts) (terms : List (List Char × List Char)),
        process cfg counts none terms = (counts, ⟨[], false, some noneMsg, 0, 0⟩)) ∧
    noneMsg ≠ [] ∧
    (∀ e t : List Char,
        (processExceptionResult e t).processed_text = t ∧
        (processExceptionResult e t).success = false ∧
        (processExceptionResult e t).error = some e) ∧
    (process defaultConfig [] (some []) []).2.success = true ∧
    (process defaultConfig [] (some []) []).2.processed_text = [] := by
  refine ⟨fun cfg counts terms => rfl, by decide, fun e t => ⟨rfl, rfl, rfl⟩, by decide, by decide⟩

/-- C5 (amended): with an empty term mapping, `process` succeeds with zero
annotations and returns the input transformed only by the spacing and
line-break normalization passes under their config flags; an input already
in normal form, such as "hello world", comes back unchanged. -/
theorem empty_terms_skips_annotation :
    (∀ (cfg : PostProcessorConfig) (counts : Counts) (t : List Char),
        (process cfg counts (some t) []).2.success = true ∧
        (process cfg counts (some t) []).2.annotations_added = 0 ∧
        (process cfg counts (some t) []).2.processed_text =
          (let t2 := if cfg.spacing_adjustment then adjust_spacing t else t
           if cfg.preserve_line_breaks then preserve_formatting t2 else t2)) ∧
    (process defaultConfig [] (some "hello world".toList) []).2.processed_text =
      "hello world".toList := by
  refine ⟨fun cfg counts t => ⟨?_, ?_, ?_⟩, by decide⟩ <;>
    simp [process]

/-- C5 (counterexample): `process` with an empty term mapping is not the
identity on the input text — on "a  b" it succeeds but returns "a b", the
double space having been collapsed by the spacing pass. -/
theorem empty_terms_not_identity :
    (process defaultConfig [] (some "a  b".toList) []).2.success = true ∧
    (process defaultConfig [] (some "a  b".toList) []).2.processed_text ≠ "a  b".toList := by
  constructor
  · decide
  · decide

/-- C6 (amended): the spacing pass collapses every run of two or more plain
spaces to one (its output never contains two adjacent spaces) and removes no
tab or newline (it preserves their counts exactly); the line-break pass,
however, deletes whitespace — including tabs — lying strictly between two
newlines when it collapses a blank segment to exactly two newlines, as in
"a\n\t\nb" becoming "a\n\nb", while tabs not between newlines survive the
whole pipeline, as in "a\tb  c" becoming "a\tb c". -/
theorem spacing_preserves_tabs_and_newlines :
    (∀ l : List Char, (adjust_spacing l).count '\t' = l.count '\t' ∧
        (adjust_spacing l).count '\n' = l.count '\n') ∧
    (∀ l : List Char, noTwoSpaces (adjust_spacing l) = true) ∧
    (process defaultConfig [] (some "a\n\t\nb".toList) []).2.processed_text =
      "a\n\nb".toList ∧
    (process defaultConfig [] (some "a\tb  c".toList) []).2.processed_text =
      "a\tb c".toList := by
  refine ⟨fun l => ⟨?_, ?_⟩, fun l => ?_, by decide, by decide⟩
  · rw [adjust_spacing, count_collapseSpaces _ (by decide),
      count_subPairSpace _ _ _ (by decide), count_subPairSpace _ _ _ (by decide)]
  · rw [adjust_spacing, count_collapseSpaces _ (by decide),
      count_subPairSpace _ _ _ (by decide), count_subPairSpace _ _ _ (by decide)]
  · exact noTwoSpaces_collapseSpaces _

/-- C6 (counterexample): on "a\n\t\nb" — which contains one tab and no run
of three or more newlines — the normalization removes the tab entirely,
refuting "every tab … remains in the output". -/
theorem tab_between_newlines_removed :
    ("a\n\t\nb".toList.count '\t' = 1) ∧
    (occursIn "\n\n\n".toList "a\n\t\nb".toList = false) ∧
    ((process defaultConfig [] (some "a\n\t\nb".toList) []).2.processed_text.count '\t' = 0) := by
  refine ⟨by decide, by decide, by decide⟩

/-- C3: terms are annotated in descending order of translated-string length
(the sorted list is pairwise ordered that way for every input), and on the
spec's example the longer term wins: the output contains
"自然言語処理（natural language processing）" and does not contain
"自然言語（natural language）処理". -/
theorem longer_term_priority :
    (∀ l : List (List Char × List Char),
        (sortTermsByLenDesc l).Pairwise (fun p q => q.2.length ≤ p.2.length)) ∧
    (occursIn "自然言語処理（natural language processing）".toList
        (process defaultConfig [] (some "自然言語処理システムについて".toList)
          [("natural language".toList, "自然言語".toList),
           ("natural language processing".toList, "自然言語処理".toList)]).2.processed_text
      = true) ∧
    (occursIn "自然言語（natural language）処理".toList
        (process defaultConfig [] (some "自然言語処理システムについて".toList)
          [("natural language".toList, "自然言語".toList),
           ("natural language processing".toList, "自然言語処理".toList)]).2.processed_text
      = false) := by
  refine ⟨pairwise_sortTermsByLenDesc, by decide, by decide⟩

/-- C1: the no-overlap invariant fails.  On text "BBBAAAA" with terms
one→AAAA, two→BBB, xyz→one (insertion order), the third accepted match lies
at recorded-coordinate-free positions but inside the first inserted gloss,
because recorded spans are never shifted when a later gloss is inserted
earlier in the text: the run inserts three glosses, the final extents
(8,22), (0,8) and (13,21) of the inserted glosses overlap, and the gloss
"AAAA（one）" inserted for "one" no longer occurs in the final text. -/
theorem gloss_spans_overlap_in_final_text :
    ((process defaultConfig [] (some c1Text) c1Terms).2.processed_text =
        "BBB（two）AAAA（one（xyz））".toList) ∧
    ((process defaultConfig [] (some c1Text) c1Terms).2.annotations_added = 3) ∧
    (occursIn "AAAA（one）".toList
        (process defaultConfig [] (some c1Text) c1Terms).2.processed_text = false) ∧
    ((add_source_term_annotations defaultConfig [] c1Text c1Terms).extents =
        [(8, 22), (0, 8), (13, 21)]) ∧
    (hasOverlap (add_source_term_annotations defaultConfig [] c1Text c1Terms).extents = true) := by
  refine ⟨by decide, by decide, by decide, by decide, by decide⟩

/-- C2: `BatchPostProcessor.process_pages` shares one `PostProcessor` across
pages intending global first-occurrence tracking, but `process()` clears the
count table at the start of every call, so a global term is annotated on
every page that contains it: on two pages both containing "ML", both calls
insert an annotation. -/
theorem process_pages_reannotates_every_page :
    ((process_pages defaultConfig ["see ML here".toList, "also ML here".toList]
        [("machine learning".toList, "ML".toList)]).map
          (fun r => r.annotations_added) = [1, 1]) ∧
    ((process_pages defaultConfig ["see ML here".toList, "also ML here".toList]
        [("machine learning".toList, "ML".toList)]).map
          (fun r => occursIn "ML（machine learning）".toList r.processed_text) =
      [true, true]) := by
  constructor
  · decide
  · decide

/-- C7 (amended): a block whose stripped text starts with a bullet glyph
from the fixed set, or has length > 2 with a single digit as its first
character immediately followed by '.' or ')', is classified LIST on every
page — this check runs first and so takes precedence over the font-size
title heuristics; numbering with two or more digits (e.g. "12.") is not
covered by the check. -/
theorem list_marker_classified_list (b : ExtTextBlock) (p : ExtPageInfo)
    (h : startsWithListMarker (pyStrip b.text) = true) :
    classify_text_block b p = AnalyzerRegionType.LIST := by
  simp [classify_text_block, h]

/-- C7 (witness): "1. Numbered item" satisfies the list-marker test and is
classified LIST on a page whose title threshold (mean font 18, so 22.5)
its font size 24 would otherwise meet. -/
theorem list_marker_classified_list_witness :
    startsWithListMarker (pyStrip listBlock.text) = true ∧
    classify_text_block listBlock c7PageA = AnalyzerRegionType.LIST :=
  ⟨by decide, list_marker_classified_list listBlock c7PageA (by decide)⟩

/-- C7 (counterexample): "12. Numbered item" matches `digit+` followed by
'.', yet the code's check (`text[0].isdigit() and text[1] in '.)'`) inspects
only one digit, so on a page meeting the title threshold the block is
classified TITLE, not LIST. -/
theorem two_digit_marker_classified_title :
    claimDigitRunMarker (pyStrip twoDigitBlock.text) = true ∧
    classify_text_block twoDigitBlock c7PageB = AnalyzerRegionType.TITLE := by
  constructor
  · decide
  · have h1 : startsWithListMarker (pyStrip twoDigitBlock.text) = false := by decide
    have h2 : 1 < c7PageB.text_blocks.length := by decide
    have h3 : ((c7PageB.text_blocks.map (fun b => b.font_size)).sum /
          (c7PageB.text_blocks.length : ℚ)) * (1.25 : ℚ) ≤ twoDigitBlock.font_size ∧
        (pyStrip twoDigitBlock.text).length < 100 := by
      constructor
      · norm_num [c7PageB, twoDigitBlock, bodyBlock]
      · decide
    simp only [classify_text_block, h1, Bool.false_eq_true, if_false, if_pos h2, if_pos h3]

/-- C8: blocks centered inside FIGURE/TABLE regions are never excluded.
`_is_in_non_text_region` compares the `RegionType` enum member against the
strings "figure"/"table", which is always false for a plain Enum, so the
function returns false for every block and page; concretely, a block
centered at (50,50) inside the FIGURE region of `figPage` is still
translated and post-processed (its text becomes "X"), instead of being
passed through unchanged as the claim requires. -/
theorem figure_region_never_excludes :
    (∀ (b : ModelTextBlock) (p : ModelPage), is_in_non_text_region b p = false) ∧
    ((process_page (fun _ => "X".toList) defaultConfig [] [] figPage).text_blocks.map
        (fun b => b.text) = ["X".toList]) ∧
    (figPage.regions = [figRegion] ∧ figRegion.type = ModelRegionType.FIGURE) ∧
    (figPage.text_blocks.map (fun b => (b.x + b.width / 2, b.y + b.height / 2)) =
        [((50 : ℚ), (50 : ℚ))]) ∧
    (figRegion.x ≤ 50 ∧ (50 : ℚ) ≤ figRegion.x + figRegion.width ∧
        figRegion.y ≤ 50 ∧ (50 : ℚ) ≤ figRegion.y + figRegion.height) := by
  refine ⟨fun b p => ?_, by decide, by decide, ?_, ?_⟩
  · simp [is_in_non_text_region, regionTypeEqStr]
  · simp [figPage]
    norm_num
  · refine ⟨?_, ?_, ?_, ?_⟩ <;> norm_num [figRegion]
